import Mathlib

/-
Verification of the GPS position matching scripts
(run_magna_gps_correction.py and run_smp_gps_correction.py).

Instants are modelled as whole seconds since an epoch (Nat); real valued
coordinates are modelled as rationals, since every arithmetic step in the
source is a finite sum of divisions by 60 and 3600.
-/

namespace MagnaGps

/-- A reference fix, one row of df_emlid after loading: a timestamp in
seconds together with decimal degree latitude and longitude. -/
structure Fix where
  timestamp : Nat
  lat : ℚ
  lon : ℚ
  deriving DecidableEq, Repr

/-- Leftmost insertion point of q in ts: the length of the maximal leading
run of entries strictly below q. On a series sorted non-decreasing this is
the value of pandas Series.searchsorted with default side left, the call
made by get_lat_emlid and get_lon_emlid in both scripts. -/
def searchsorted (ts : List Nat) (q : Nat) : Nat :=
  match ts with
  | [] => 0
  | t :: rest => if t < q then searchsorted rest q + 1 else 0

/-- The source function degree_dms2dec: for dd >= 0 the sum
dd + mn / 60 + ss / 3600, otherwise the negated sum of the absolute degree
part with the two fractions. -/
def degree_dms2dec (dd mn ss : ℚ) : ℚ :=
  if 0 ≤ dd then dd + mn / 60 + ss / 3600
  else -(|dd| + mn / 60 + ss / 3600)

/-- Seconds in one day. -/
def secPerDay : Nat := 86400

/-- Reading of a six digit HHMMSS text into hours, minutes and seconds,
as the slices thisUTCtime[:2], [2:4] and [4:] produce before pd.to_datetime
parses the recombined text. The result is none when the text is not six
digits or a clock field is out of range, the cases where pd.to_datetime
raises in the source. -/
def parseHHMMSS (digits : List Nat) : Option (Nat × Nat × Nat) :=
  match digits with
  | [d1, d2, d3, d4, d5, d6] =>
    if d1 < 10 ∧ d2 < 10 ∧ d3 < 10 ∧ d4 < 10 ∧ d5 < 10 ∧ d6 < 10 then
      let hh := d1 * 10 + d2
      let mm := d3 * 10 + d4
      let ss := d5 * 10 + d6
      if hh < 24 ∧ mm < 60 ∧ ss < 60 then some (hh, mm, ss) else none
    else none
  | _ => none

/-- The source function timestamp_magna: keep only the calendar date of the
logger datetime (given here as days since the epoch plus an ignored seconds
of day part, mirroring the .date() call), combine it with the six digit UTC
time of day, and add the fixed 18 second leap correction. -/
def timestamp_magna (datetimeDays : Nat) (datetimeSecs : Nat)
    (thisUTCtime : List Nat) : Option Nat :=
  match parseHHMMSS thisUTCtime with
  | none => none
  | some (hh, mm, ss) =>
    some (datetimeDays * secPerDay + (hh * 3600 + mm * 60 + ss) + 18)

/-- One PPK row: the timestamp built by row_to_time from the date and time
columns, and decimal degree latitude and longitude taken directly from
columns 4 and 6 of the pos file. -/
structure PpkRow where
  timestamp : Nat
  lat : ℚ
  lon : ℚ
  deriving DecidableEq, Repr

/-- One PPP row: the timestamp plus degree, minute, second triples for each
axis, as selected from the whitespace report columns. -/
structure PppRow where
  timestamp : Nat
  latdd : ℚ
  latmn : ℚ
  latss : ℚ
  londd : ℚ
  lonmn : ℚ
  lonss : ℚ
  deriving DecidableEq, Repr

/-- PPK branch of the loaders: one fix per input row, in input row order.
The source applies no sort anywhere. -/
def load_track_ppk (rows : List PpkRow) : List Fix :=
  rows.map (fun r => { timestamp := r.timestamp, lat := r.lat, lon := r.lon })

/-- PPP branch of the loaders: as the PPK branch but converting each axis
with degree_dms2dec, again in input row order with no sort. -/
def load_track_ppp (rows : List PppRow) : List Fix :=
  rows.map (fun r =>
    { timestamp := r.timestamp,
      lat := degree_dms2dec r.latdd r.latmn r.latss,
      lon := degree_dms2dec r.londd r.lonmn r.lonss })

/-- First track instant, df_emlid.timestamp.iloc[0]. -/
def track_begin (track : List Fix) : Option Nat :=
  track.head?.map Fix.timestamp

/-- Last track instant, df_emlid.timestamp.iloc[-1]. -/
def track_end (track : List Fix) : Option Nat :=
  track.getLast?.map Fix.timestamp

/-- The recognized PPK mode text. -/
def ppkMode : String := "PPK_correction"

/-- The recognized PPP mode text. -/
def pppMode : String := "PPP_correction"

/-- Mode dispatch shared by both scripts: each recognized mode text builds
its track; any other text leaves df_emlid unconstructed (the source prints
a warning and continues with the name unbound, modelled as none). -/
def load_emlid (mode : String) (ppk : List PpkRow) (ppp : List PppRow) :
    Option (List Fix) :=
  if mode = ppkMode then some (load_track_ppk ppk)
  else if mode = pppMode then some (load_track_ppp ppp)
  else none

namespace Magna

/-- The magna script get_lat_emlid: index df_emlid at the insertion point of
the query timestamp and read lat. The result is none exactly when iloc
raises IndexError, i.e. when the insertion point is past the last row. -/
def get_lat_emlid (t : Nat) (df_emlid : List Fix) : Option ℚ :=
  (df_emlid[searchsorted (df_emlid.map Fix.timestamp) t]?).map Fix.lat

/-- The magna script get_lon_emlid, same row selection as get_lat_emlid. -/
def get_lon_emlid (t : Nat) (df_emlid : List Fix) : Option ℚ :=
  (df_emlid[searchsorted (df_emlid.map Fix.timestamp) t]?).map Fix.lon

/-- One magnaprobe row after the timestamp_utc column is computed: the
instant plus a row identifier standing for the passthrough payload. -/
structure SRec where
  recId : Nat
  timestamp_utc : Nat
  deriving DecidableEq, Repr

/-- The trim df_magna[(df_magna.timestamp_utc > begin) &
(df_magna.timestamp_utc < end)]. -/
def trim_stream (rows : List SRec) (b e : Nat) : List SRec :=
  rows.filter (fun r => decide (b < r.timestamp_utc) && decide (r.timestamp_utc < e))

/-- One output row of the corrected csv: the retained record plus the two
looked up emlid coordinates. -/
structure OutRec where
  row : SRec
  lat_emlid : Option ℚ
  lon_emlid : Option ℚ
  deriving DecidableEq, Repr

/-- Crash on the unbound name df_emlid after an unrecognized mode. -/
def errNoTrack : String := "UnboundLocalError: df_emlid"

/-- Crash of iloc[0] on a track with no rows. -/
def errEmptyTrack : String := "IndexError: iloc on empty frame"

/-- The driver magnaprobe_get_gps_correction reduced to the decisions the
claims are about: build df_emlid by mode, read begin and end, trim the
magna rows, and attach the looked up coordinates to each retained row. An
unrecognized mode prints a warning and then crashes on the unbound name
df_emlid at the begin read; the caller turns that into a fatal error with
no csv written, which is the first error branch here. -/
def magnaprobe_get_gps_correction (mode : String) (ppk : List PpkRow)
    (ppp : List PppRow) (df_magna : List SRec) : Except String (List OutRec) :=
  match load_emlid mode ppk ppp with
  | none => Except.error errNoTrack
  | some track =>
    match track_begin track, track_end track with
    | some b, some e =>
      Except.ok ((trim_stream df_magna b e).map (fun r =>
        { row := r, lat_emlid := get_lat_emlid r.timestamp_utc track,
          lon_emlid := get_lon_emlid r.timestamp_utc track }))
    | some _, none => Except.error errEmptyTrack
    | none, _ => Except.error errEmptyTrack

end Magna

namespace Smp

/-- The smp script get_lat_emlid: as the magna one, but any failure inside
the try block yields None: an IndexError past the last row, or an absent
query instant (a missing timestamp sorts past every fix and then iloc
raises). The query instant is therefore optional here. -/
def get_lat_emlid (t : Option Nat) (df_emlid : List Fix) : Option ℚ :=
  match t with
  | none => none
  | some q => (df_emlid[searchsorted (df_emlid.map Fix.timestamp) q]?).map Fix.lat

/-- The smp script get_lon_emlid, same selection and same failure cases. -/
def get_lon_emlid (t : Option Nat) (df_emlid : List Fix) : Option ℚ :=
  match t with
  | none => none
  | some q => (df_emlid[searchsorted (df_emlid.map Fix.timestamp) q]?).map Fix.lon

/-- One smp event row of smp_df: file name, leap corrected instant, and the
optional self reported coordinates from the profile decoder. -/
structure Event where
  name : List Char
  timestamp : Option Nat
  lat : Option ℚ
  lon : Option ℚ
  deriving DecidableEq, Repr

/-- Last n characters of a name; for n = 8 this is the slice name[-8:],
which returns the whole name when it is shorter than eight characters. -/
def lastN (n : Nat) (l : List Char) : List Char :=
  l.drop (l.length - n)

/-- The membership test str(row.file) in name[-8:]: the fragment occurs as
a contiguous substring of the last eight characters of the event name. -/
def matchesFrag (frag : List Char) (name : List Char) : Bool :=
  decide (frag <:+: lastN 8 name)

/-- The matching loop over the excel rows: for each catalog fragment keep
every event whose name matches, and concatenate the per row selections in
catalog order (the pd.concat over the matching_row frames). -/
def match_catalog (catalog : List (List Char)) (events : List Event) :
    List Event :=
  catalog.flatMap (fun frag => events.filter (fun e => matchesFrag frag e.name))

/-- The missing files check of the source: a warning is printed exactly
when the total number of concatenated rows differs from the number of
catalog rows. -/
def missing_warning (catalog : List (List Char)) (events : List Event) : Bool :=
  decide ((match_catalog catalog events).length ≠ catalog.length)

/-- A matched event with the two looked up coordinates attached. -/
structure CorrectedEvent where
  ev : Event
  lat_emlid : Option ℚ
  lon_emlid : Option ℚ
  deriving DecidableEq, Repr

/-- The two apply calls adding lat_emlid and lon_emlid to each matched
event row. -/
def correct_events (events : List Event) (track : List Fix) :
    List CorrectedEvent :=
  events.map (fun e =>
    { ev := e, lat_emlid := get_lat_emlid e.timestamp track,
      lon_emlid := get_lon_emlid e.timestamp track })

/-- The unmatched position check exactly as written in the source: the
lat_emlid column is tested twice and lon_emlid never. -/
def lat_warning (corrected : List CorrectedEvent) : Bool :=
  corrected.any (fun c => c.lat_emlid.isNone) ||
    corrected.any (fun c => c.lat_emlid.isNone)

/-- Crash of pd.concat when the catalog has no rows at all. -/
def errConcat : String := "ValueError: no objects to concatenate"

/-- Crash on the unbound name df_emlid after an unrecognized mode. -/
def errNoTrack : String := "UnboundLocalError: df_emlid"

/-- Crash of the single column assignment after an unrecognized mode with
zero matched rows: apply on the empty matched frame probes the lambda on an
empty row once, that probe raises on the unbound name df_emlid and is
swallowed, apply therefore returns a copy of the whole empty frame instead
of a one column result, and assigning that frame to the single lat_emlid
column raises. -/
def errFrameAssign : String := "ValueError: frame assigned to one column"

/-- The driver smp_get_gps_correction reduced to the claim relevant path:
read the catalog (pd.concat raises when it has no rows), collect the
matched events, and attach coordinates. With an unrecognized mode df_emlid
stays unbound and the run always dies before writing: when at least one
matched row exists the per row apply lambda raises on the unbound name,
and with zero matched rows the empty frame apply falls back to a frame
copy (its probe of the lambda raises on the unbound name) whose assignment
to the one column lat_emlid raises. With a recognized mode the run always
completes: on zero matched rows the empty frame apply probe returns a non
series value, so apply reduces to an empty column and the assignment
succeeds. Both warnings are computed and the improved file is always
written on that path; the ok payload carries the missing files flag, the
unmatched position flag, and the written rows. -/
def smp_get_gps_correction (mode : String) (ppk : List PpkRow)
    (ppp : List PppRow) (catalog : List (List Char)) (events : List Event) :
    Except String (Bool × Bool × List CorrectedEvent) :=
  if catalog = [] then Except.error errConcat
  else
    match load_emlid mode ppk ppp, match_catalog catalog events with
    | none, [] => Except.error errFrameAssign
    | none, _ :: _ => Except.error errNoTrack
    | some track, m =>
      Except.ok (missing_warning catalog events,
        lat_warning (correct_events m track), correct_events m track)

end Smp

/-! Lemmas about the insertion point. -/

theorem searchsorted_le_length (ts : List Nat) (q : Nat) :
    searchsorted ts q ≤ ts.length := by
  induction ts with
  | nil => simp [searchsorted]
  | cons t rest ih =>
    simp only [searchsorted, List.length_cons]
    split
    · omega
    · omega

theorem lt_of_getElem?_lt_searchsorted {ts : List Nat} {q j v : Nat}
    (hj : j < searchsorted ts q) (hv : ts[j]? = some v) : v < q := by
  induction ts generalizing j with
  | nil => simp [searchsorted] at hj
  | cons t rest ih =>
    simp only [searchsorted] at hj
    by_cases h : t < q
    · rw [if_pos h] at hj
      cases j with
      | zero =>
        rw [List.getElem?_cons_zero] at hv
        cases hv
        exact h
      | succ j =>
        rw [List.getElem?_cons_succ] at hv
        exact ih (by omega) hv
    · rw [if_neg h] at hj
      omega

theorem searchsorted_lt_length {ts : List Nat} {q last : Nat}
    (hlast : ts.getLast? = some last) (hq : q ≤ last) :
    searchsorted ts q < ts.length := by
  have hne : ts ≠ [] := by
    intro h
    rw [h] at hlast
    simp at hlast
  have hpos : 0 < ts.length := List.length_pos.mpr hne
  have hle := searchsorted_le_length ts q
  rcases Nat.lt_or_ge (searchsorted ts q) ts.length with h | h
  · exact h
  · exfalso
    have hidx : ts.length - 1 < searchsorted ts q := by omega
    have hlast2 : ts[ts.length - 1]? = some last := by
      rw [← List.getLast?_eq_getElem?]
      exact hlast
    have := lt_of_getElem?_lt_searchsorted hidx hlast2
    omega

theorem le_of_getElem?_searchsorted {ts : List Nat} {q v : Nat}
    (hv : ts[searchsorted ts q]? = some v) : q ≤ v := by
  induction ts with
  | nil => simp at hv
  | cons t rest ih =>
    simp only [searchsorted] at hv
    by_cases h : t < q
    · rw [if_pos h, List.getElem?_cons_succ] at hv
      exact ih hv
    · rw [if_neg h, List.getElem?_cons_zero] at hv
      cases hv
      omega

theorem searchsorted_unique {ts : List Nat} {q n : Nat}
    (hbelow : ∀ j v, j < n → ts[j]? = some v → v < q)
    (habove : ∀ v, ts[n]? = some v → q ≤ v)
    (hn : n ≤ ts.length) :
    searchsorted ts q = n := by
  induction ts generalizing n with
  | nil =>
    simp only [List.length_nil, Nat.le_zero] at hn
    simp [searchsorted, hn]
  | cons t rest ih =>
    cases n with
    | zero =>
      have hqt : q ≤ t := habove t List.getElem?_cons_zero
      simp only [searchsorted]
      rw [if_neg (by omega)]
    | succ n =>
      have ht : t < q :=
        hbelow 0 t (Nat.succ_pos n) List.getElem?_cons_zero
      have hb2 : ∀ j v, j < n → rest[j]? = some v → v < q := by
        intro j v hj hv
        exact hbelow (j + 1) v (by omega) (by rwa [List.getElem?_cons_succ])
      have ha2 : ∀ v, rest[n]? = some v → q ≤ v := by
        intro v hv
        exact habove v (by rwa [List.getElem?_cons_succ])
      have hn2 : n ≤ rest.length := by
        simp only [List.length_cons] at hn
        omega
      have hrec := ih hb2 ha2 hn2
      simp only [searchsorted]
      rw [if_pos ht]
      omega

theorem sorted_getElem?_le {ts : List Nat} {i j a b : Nat}
    (hs : ts.Sorted (· ≤ ·)) (hij : i ≤ j)
    (ha : ts[i]? = some a) (hb : ts[j]? = some b) : a ≤ b := by
  rw [List.Sorted, List.pairwise_iff_getElem] at hs
  rw [List.getElem?_eq_some] at ha hb
  obtain ⟨hi, rfl⟩ := ha
  obtain ⟨hj, rfl⟩ := hb
  rcases Nat.lt_or_ge i j with h | h
  · exact hs i j hi hj h
  · have : i = j := by omega
    subst this
    rfl

theorem searchsorted_eq_succ_of_between {ts : List Nat} {q a b k : Nat}
    (hs : ts.Sorted (· ≤ ·)) (ha : ts[k]? = some a) (hb : ts[k + 1]? = some b)
    (haq : a < q) (hqb : q ≤ b) : searchsorted ts q = k + 1 := by
  have hlen : k + 1 < ts.length := by
    rw [List.getElem?_eq_some] at hb
    exact hb.1
  refine searchsorted_unique ?_ ?_ (by omega)
  · intro j v hj hv
    have hle : v ≤ a := sorted_getElem?_le hs (by omega) hv ha
    omega
  · intro v hv
    rw [hb] at hv
    cases hv
    exact hqb

theorem getElem?_searchsorted_of_mem {ts : List Nat} {q k : Nat}
    (hs : ts.Sorted (· ≤ ·)) (hk : ts[k]? = some q) :
    ts[searchsorted ts q]? = some q := by
  have hklen : k < ts.length := by
    rw [List.getElem?_eq_some] at hk
    exact hk.1
  have hssk : searchsorted ts q ≤ k := by
    by_contra hcon
    push_neg at hcon
    have := lt_of_getElem?_lt_searchsorted hcon hk
    omega
  have hsslen : searchsorted ts q < ts.length := lt_of_le_of_lt hssk hklen
  obtain ⟨v, hv⟩ : ∃ v, ts[searchsorted ts q]? = some v := by
    rw [List.getElem?_eq_getElem hsslen]
    exact ⟨_, rfl⟩
  have hqv : q ≤ v := le_of_getElem?_searchsorted hv
  have hvq : v ≤ q := sorted_getElem?_le hs hssk hv hk
  rw [hv]
  congr 1
  omega

theorem searchsorted_eq_length_of_all_lt {ts : List Nat} {q : Nat}
    (h : ∀ v ∈ ts, v < q) : searchsorted ts q = ts.length := by
  induction ts with
  | nil => rfl
  | cons t rest ih =>
    simp only [searchsorted, List.length_cons]
    rw [if_pos (h t (List.mem_cons_self t rest))]
    rw [ih (fun v hv => h v (List.mem_cons_of_mem t hv))]

/-! Concrete fixtures used by the witnesses. -/

/-- A reference fix at instant 10. -/
def fixA : Fix := { timestamp := 10, lat := 1, lon := 2 }

/-- A reference fix at instant 20. -/
def fixB : Fix := { timestamp := 20, lat := 3, lon := 4 }

/-- A two fix reference track sorted by instant. -/
def trackW : List Fix := [fixA, fixB]

/-! Claim theorems. -/

/-- C1: on a reference track sorted ascending by instant, for any query
instant not later than the last fix instant, the lookup returns the fix at
the leftmost insertion point: the insertion index is in range, both
coordinate reads succeed on that row and the row instant is not before the
query; every row before that index is strictly before the query; a query
strictly between two consecutive instants (or equal to the second) selects
the later of the two rows; and a query equal to some row instant lands on
a row carrying exactly that instant. -/
theorem C1_nearest_fix_insertion_point (track : List Fix) (q last : Nat)
    (hs : (track.map Fix.timestamp).Sorted (· ≤ ·))
    (hlast : (track.map Fix.timestamp).getLast? = some last) (hq : q ≤ last) :
    (∃ f, track[searchsorted (track.map Fix.timestamp) q]? = some f ∧
      Magna.get_lat_emlid q track = some f.lat ∧
      Magna.get_lon_emlid q track = some f.lon ∧ q ≤ f.timestamp) ∧
    (∀ (j v : Nat), j < searchsorted (track.map Fix.timestamp) q →
      (track.map Fix.timestamp)[j]? = some v → v < q) ∧
    (∀ (k a b : Nat), (track.map Fix.timestamp)[k]? = some a →
      (track.map Fix.timestamp)[k + 1]? = some b → a < q → q ≤ b →
      searchsorted (track.map Fix.timestamp) q = k + 1) ∧
    (∀ (k : Nat), (track.map Fix.timestamp)[k]? = some q →
      (track.map Fix.timestamp)[searchsorted (track.map Fix.timestamp) q]? =
        some q) := by
  have hlt : searchsorted (track.map Fix.timestamp) q <
      (track.map Fix.timestamp).length :=
    searchsorted_lt_length hlast hq
  rw [List.length_map] at hlt
  refine ⟨?_, ?_, ?_, ?_⟩
  · obtain ⟨f, hf⟩ : ∃ f,
        track[searchsorted (track.map Fix.timestamp) q]? = some f := by
      rw [List.getElem?_eq_getElem hlt]
      exact ⟨_, rfl⟩
    refine ⟨f, hf, ?_, ?_, ?_⟩
    · rw [Magna.get_lat_emlid, hf]
      rfl
    · rw [Magna.get_lon_emlid, hf]
      rfl
    · have hts : (track.map Fix.timestamp)[searchsorted
          (track.map Fix.timestamp) q]? = some f.timestamp := by
        rw [List.getElem?_map, hf]
        rfl
      exact le_of_getElem?_searchsorted hts
  · intro j v hj hv
    exact lt_of_getElem?_lt_searchsorted hj hv
  · intro k a b ha hb haq hqb
    exact searchsorted_eq_succ_of_between hs ha hb haq hqb
  · intro k hk
    exact getElem?_searchsorted_of_mem hs hk

/-- C1 witness: on the concrete sorted two fix track, query 15 satisfies
every hypothesis and the lookup returns the later fix. -/
theorem C1_nearest_fix_insertion_point_witness :
    (trackW.map Fix.timestamp).Sorted (· ≤ ·) ∧
    (trackW.map Fix.timestamp).getLast? = some 20 ∧ (15 : Nat) ≤ 20 ∧
    (∃ f, trackW[searchsorted (trackW.map Fix.timestamp) 15]? = some f ∧
      Magna.get_lat_emlid 15 trackW = some f.lat ∧
      Magna.get_lon_emlid 15 trackW = some f.lon ∧ 15 ≤ f.timestamp) :=
  ⟨by decide, by decide, by decide,
    (C1_nearest_fix_insertion_point trackW 15 20 (by decide) (by decide)
      (by decide)).1⟩

/-- C2: for a valid date and a valid six digit clock text, timestamp_magna
yields the instant whose date comes from the date input alone (the time of
day of the logger datetime is ignored) and whose time of day is HH:MM:SS
shifted forward by exactly 18 seconds, the date advancing exactly when the
addition crosses midnight; and the concrete record with date 2023-12-15
(epoch day 19706) and ThisUTCtime 171119 yields 17:11:37 on the same day. -/
theorem C2_timestamp_leap_offset (dDays dSecs dSecs2 d1 d2 d3 d4 d5 d6 : Nat)
    (hd : d1 < 10 ∧ d2 < 10 ∧ d3 < 10 ∧ d4 < 10 ∧ d5 < 10 ∧ d6 < 10)
    (hhv : d1 * 10 + d2 < 24) (hmv : d3 * 10 + d4 < 60)
    (hsv : d5 * 10 + d6 < 60) :
    timestamp_magna dDays dSecs [d1, d2, d3, d4, d5, d6] =
      some (dDays * secPerDay +
        ((d1 * 10 + d2) * 3600 + (d3 * 10 + d4) * 60 + (d5 * 10 + d6)) + 18) ∧
    (∀ (r : Nat), timestamp_magna dDays dSecs [d1, d2, d3, d4, d5, d6] = some r →
      r % secPerDay =
        ((d1 * 10 + d2) * 3600 + (d3 * 10 + d4) * 60 + (d5 * 10 + d6) + 18) %
          secPerDay ∧
      r / secPerDay =
        (if (d1 * 10 + d2) * 3600 + (d3 * 10 + d4) * 60 + (d5 * 10 + d6) + 18 <
            secPerDay then dDays else dDays + 1)) ∧
    timestamp_magna dDays dSecs [d1, d2, d3, d4, d5, d6] =
      timestamp_magna dDays dSecs2 [d1, d2, d3, d4, d5, d6] ∧
    timestamp_magna 19706 0 [1, 7, 1, 1, 1, 9] =
      some (19706 * secPerDay + (17 * 3600 + 11 * 60 + 37)) := by
  have hparse : parseHHMMSS [d1, d2, d3, d4, d5, d6] =
      some (d1 * 10 + d2, d3 * 10 + d4, d5 * 10 + d6) := by
    simp only [parseHHMMSS]
    rw [if_pos hd, if_pos ⟨hhv, hmv, hsv⟩]
  have heval : timestamp_magna dDays dSecs [d1, d2, d3, d4, d5, d6] =
      some (dDays * secPerDay +
        ((d1 * 10 + d2) * 3600 + (d3 * 10 + d4) * 60 + (d5 * 10 + d6)) + 18) := by
    rw [timestamp_magna, hparse]
  have heval2 : timestamp_magna dDays dSecs2 [d1, d2, d3, d4, d5, d6] =
      some (dDays * secPerDay +
        ((d1 * 10 + d2) * 3600 + (d3 * 10 + d4) * 60 + (d5 * 10 + d6)) + 18) := by
    rw [timestamp_magna, hparse]
  refine ⟨heval, ?_, ?_, by decide⟩
  · intro r hr
    rw [heval] at hr
    cases hr
    have hbound : (d1 * 10 + d2) * 3600 + (d3 * 10 + d4) * 60 + (d5 * 10 + d6) <
        secPerDay := by
      simp only [secPerDay]
      omega
    constructor
    · simp only [secPerDay] at hbound ⊢
      omega
    · by_cases hmid : (d1 * 10 + d2) * 3600 + (d3 * 10 + d4) * 60 +
          (d5 * 10 + d6) + 18 < secPerDay
      · rw [if_pos hmid]
        simp only [secPerDay] at hmid ⊢
        omega
      · rw [if_neg hmid]
        simp only [secPerDay] at hmid hbound ⊢
        omega
  · rw [heval, heval2]

/-- C2 witness: the concrete scenario record, with every hypothesis checked
at the digits of 171119 and the example date. -/
theorem C2_timestamp_leap_offset_witness :
    ((1 : Nat) < 10 ∧ (7 : Nat) < 10 ∧ (1 : Nat) < 10 ∧ (1 : Nat) < 10 ∧
      (1 : Nat) < 10 ∧ (9 : Nat) < 10) ∧
    1 * 10 + 7 < 24 ∧ 1 * 10 + 1 < 60 ∧ 1 * 10 + 9 < 60 ∧
    timestamp_magna 19706 0 [1, 7, 1, 1, 1, 9] =
      some (19706 * secPerDay + (17 * 3600 + 11 * 60 + 37)) :=
  ⟨by decide, by decide, by decide, by decide,
    (C2_timestamp_leap_offset 19706 0 5 1 7 1 1 1 9 (by decide) (by decide)
      (by decide) (by decide)).2.2.2⟩

/-- C10: whenever the latitude lookup succeeds, both lookups read the row
at the same insertion index of the same track, so the corrected latitude
and longitude of a record come from one and the same reference fix; this
holds for the magna variants and for the smp variants at the same instant. -/
theorem C10_lat_lon_same_fix (t : Nat) (track : List Fix) (q : ℚ)
    (h : Magna.get_lat_emlid t track = some q) :
    ∃ f, track[searchsorted (track.map Fix.timestamp) t]? = some f ∧
      Magna.get_lat_emlid t track = some f.lat ∧
      Magna.get_lon_emlid t track = some f.lon ∧
      Smp.get_lat_emlid (some t) track = some f.lat ∧
      Smp.get_lon_emlid (some t) track = some f.lon := by
  rw [Magna.get_lat_emlid] at h
  obtain ⟨f, hf, hq⟩ := Option.map_eq_some.mp h
  refine ⟨f, hf, ?_, ?_, ?_, ?_⟩
  · rw [Magna.get_lat_emlid, hf]
    rfl
  · rw [Magna.get_lon_emlid, hf]
    rfl
  · rw [Smp.get_lat_emlid, hf]
    rfl
  · rw [Smp.get_lon_emlid, hf]
    rfl

/-- C10 witness: the concrete track and query 15, where the latitude lookup
succeeds, so one fix supplies both coordinates. -/
theorem C10_lat_lon_same_fix_witness :
    Magna.get_lat_emlid 15 trackW = some 3 ∧
    (∃ f, trackW[searchsorted (trackW.map Fix.timestamp) 15]? = some f ∧
      Magna.get_lat_emlid 15 trackW = some f.lat ∧
      Magna.get_lon_emlid 15 trackW = some f.lon ∧
      Smp.get_lat_emlid (some 15) trackW = some f.lat ∧
      Smp.get_lon_emlid (some 15) trackW = some f.lon) :=
  ⟨by decide, C10_lat_lon_same_fix 15 trackW 3 (by decide)⟩

/-- A PPK row at instant 2. -/
def rowLate : PpkRow := { timestamp := 2, lat := 0, lon := 0 }

/-- A PPK row at instant 1. -/
def rowEarly : PpkRow := { timestamp := 1, lat := 0, lon := 0 }

/-- C3 counterexample: two PPK rows arriving in decreasing time order load
into a track that is not sorted by instant, with begin later than end, so
the loaders do not sort for every input row order. -/
theorem C3_counterexample :
    ¬ ((load_track_ppk [rowLate, rowEarly]).map Fix.timestamp).Sorted (· ≤ ·) ∧
    track_begin (load_track_ppk [rowLate, rowEarly]) = some 2 ∧
    track_end (load_track_ppk [rowLate, rowEarly]) = some 1 := by
  refine ⟨by decide, by decide, by decide⟩

/-- C3 amended: in both loader modes the track preserves the input row
order with no sort applied; begin is the first input row instant and end
the last input row instant; consequently the exposed track is sorted
non-decreasing by instant exactly when the input rows already arrive so
sorted, not for every input row order. -/
theorem C3_loader_preserves_input_order (ppk : List PpkRow)
    (ppp : List PppRow) :
    (load_track_ppk ppk).map Fix.timestamp = ppk.map PpkRow.timestamp ∧
    (load_track_ppp ppp).map Fix.timestamp = ppp.map PppRow.timestamp ∧
    track_begin (load_track_ppk ppk) = ppk.head?.map PpkRow.timestamp ∧
    track_end (load_track_ppk ppk) = ppk.getLast?.map PpkRow.timestamp ∧
    track_begin (load_track_ppp ppp) = ppp.head?.map PppRow.timestamp ∧
    track_end (load_track_ppp ppp) = ppp.getLast?.map PppRow.timestamp ∧
    (((load_track_ppk ppk).map Fix.timestamp).Sorted (· ≤ ·) ↔
      (ppk.map PpkRow.timestamp).Sorted (· ≤ ·)) ∧
    (((load_track_ppp ppp).map Fix.timestamp).Sorted (· ≤ ·) ↔
      (ppp.map PppRow.timestamp).Sorted (· ≤ ·)) := by
  have h1 : (load_track_ppk ppk).map Fix.timestamp = ppk.map PpkRow.timestamp := by
    rw [load_track_ppk, List.map_map]
    rfl
  have h2 : (load_track_ppp ppp).map Fix.timestamp = ppp.map PppRow.timestamp := by
    rw [load_track_ppp, List.map_map]
    rfl
  refine ⟨h1, h2, ?_, ?_, ?_, ?_, by rw [h1], by rw [h2]⟩
  · rw [track_begin, load_track_ppk, List.head?_map, Option.map_map]
    rfl
  · rw [track_end, load_track_ppk, List.getLast?_map, Option.map_map]
    rfl
  · rw [track_begin, load_track_ppp, List.head?_map, Option.map_map]
    rfl
  · rw [track_end, load_track_ppp, List.getLast?_map, Option.map_map]
    rfl

/-- C4: the stream corrector retains exactly the rows whose corrected
instant lies strictly between the begin and end instants of the reference
track (its first and last fix instants); a row whose instant equals either
boundary is dropped. -/
theorem C4_trim_strict_bounds (track : List Fix) (b e : Nat)
    (rows : List Magna.SRec) (hb : track_begin track = some b)
    (he : track_end track = some e) :
    (∀ r, r ∈ Magna.trim_stream rows b e ↔
      (r ∈ rows ∧ b < r.timestamp_utc ∧ r.timestamp_utc < e)) ∧
    (∀ r, r ∈ rows → r.timestamp_utc = b ∨ r.timestamp_utc = e →
      r ∉ Magna.trim_stream rows b e) := by
  have hmem : ∀ r, r ∈ Magna.trim_stream rows b e ↔
      (r ∈ rows ∧ b < r.timestamp_utc ∧ r.timestamp_utc < e) := by
    intro r
    rw [Magna.trim_stream, List.mem_filter]
    simp only [Bool.and_eq_true, decide_eq_true_eq]
  refine ⟨hmem, ?_⟩
  intro r hr hbe hcon
  rw [hmem r] at hcon
  omega

/-- A stream row exactly at the begin boundary. -/
def srecAtBegin : Magna.SRec := { recId := 0, timestamp_utc := 10 }

/-- A stream row strictly inside the reference span. -/
def srecInside : Magna.SRec := { recId := 1, timestamp_utc := 15 }

/-- A stream row exactly at the end boundary. -/
def srecAtEnd : Magna.SRec := { recId := 2, timestamp_utc := 20 }

/-- The three stream rows used by the trimming witness. -/
def srecRows : List Magna.SRec := [srecAtBegin, srecInside, srecAtEnd]

/-- C4 witness: on the concrete track from instant 10 to 20, trimming the
three concrete rows keeps exactly the strictly interior one. -/
theorem C4_trim_strict_bounds_witness :
    track_begin trackW = some 10 ∧ track_end trackW = some 20 ∧
    (∀ r, r ∈ Magna.trim_stream srecRows 10 20 ↔
      (r ∈ srecRows ∧ 10 < r.timestamp_utc ∧ r.timestamp_utc < 20)) :=
  ⟨by decide, by decide,
    (C4_trim_strict_bounds trackW 10 20 srecRows (by decide) (by decide)).1⟩

/-- C5: in the event path, an event whose instant is absent or strictly
later than every fix of the reference track gets both corrected
coordinates unset; every event is still processed (one output entry per
event), and each output entry is computed from its own event alone, so the
failure stays confined to that single event and the batch never aborts. -/
theorem C5_event_out_of_bounds_confined (events : List Smp.Event)
    (track : List Fix) (i : Nat) (e : Smp.Event) (hi : events[i]? = some e)
    (he : e.timestamp = none ∨
      ∃ t, e.timestamp = some t ∧ ∀ f ∈ track, f.timestamp < t) :
    (Smp.correct_events events track)[i]? =
      some { ev := e, lat_emlid := none, lon_emlid := none } ∧
    (Smp.correct_events events track).length = events.length ∧
    (∀ (j : Nat) (e2 : Smp.Event), events[j]? = some e2 →
      (Smp.correct_events events track)[j]? =
        some { ev := e2, lat_emlid := Smp.get_lat_emlid e2.timestamp track,
               lon_emlid := Smp.get_lon_emlid e2.timestamp track }) := by
  have hmap : ∀ (j : Nat) (e2 : Smp.Event), events[j]? = some e2 →
      (Smp.correct_events events track)[j]? =
        some { ev := e2, lat_emlid := Smp.get_lat_emlid e2.timestamp track,
               lon_emlid := Smp.get_lon_emlid e2.timestamp track } := by
    intro j e2 hj
    rw [Smp.correct_events, List.getElem?_map, hj]
    rfl
  have hnone : Smp.get_lat_emlid e.timestamp track = none ∧
      Smp.get_lon_emlid e.timestamp track = none := by
    rcases he with h | ⟨t, ht, hall⟩
    · rw [h]
      exact ⟨rfl, rfl⟩
    · have hss : searchsorted (track.map Fix.timestamp) t =
          (track.map Fix.timestamp).length := by
        refine searchsorted_eq_length_of_all_lt ?_
        intro v hv
        obtain ⟨f, hf, rfl⟩ := List.mem_map.mp hv
        exact hall f hf
      have hget : track[searchsorted (track.map Fix.timestamp) t]? =
          (none : Option Fix) := by
        rw [List.getElem?_eq_none]
        rw [hss, List.length_map]
      rw [ht]
      constructor
      · show (track[searchsorted (track.map Fix.timestamp) t]?).map Fix.lat =
          none
        rw [hget]
        rfl
      · show (track[searchsorted (track.map Fix.timestamp) t]?).map Fix.lon =
          none
        rw [hget]
        rfl
  refine ⟨?_, ?_, hmap⟩
  · rw [hmap i e hi, hnone.1, hnone.2]
  · rw [Smp.correct_events, List.length_map]

/-- An smp event whose instant is later than both fixes of trackW. -/
def eventLate : Smp.Event :=
  { name := ['S', '3', '1', 'M', '0', '1', '2', '3'], timestamp := some 100,
    lat := none, lon := none }

/-- C5 witness: the single concrete event past the end of the concrete
track is left with both coordinates unset while the batch output still has
one entry per event. -/
theorem C5_event_out_of_bounds_confined_witness :
    [eventLate][0]? = some eventLate ∧
    (eventLate.timestamp = none ∨
      ∃ t, eventLate.timestamp = some t ∧ ∀ f ∈ trackW, f.timestamp < t) ∧
    (Smp.correct_events [eventLate] trackW)[0]? =
      some { ev := eventLate, lat_emlid := none, lon_emlid := none } ∧
    (Smp.correct_events [eventLate] trackW).length = [eventLate].length :=
  ⟨by decide, by decide,
    (C5_event_out_of_bounds_confined [eventLate] trackW 0 eventLate
      (by decide) (by decide)).1,
    (C5_event_out_of_bounds_confined [eventLate] trackW 0 eventLate
      (by decide) (by decide)).2.1⟩

/-- An unrecognized correction mode text. -/
def bogusMode : String := "GPS_correction"

/-- C6: any mode other than the two recognized texts constructs no
reference track, and both drivers then fail with an error and write
nothing, for every input. The magna driver always crashes on the unbound
df_emlid name at the begin read. The smp driver dies in every case: on an
empty catalog at the concat, on at least one matched row inside the per
row lambda referencing the unbound name, and on zero matched rows at the
single column assignment of the frame returned by the empty frame apply. -/
theorem C6_unrecognized_mode_fatal (mode : String) (ppk : List PpkRow)
    (ppp : List PppRow) (df_magna : List Magna.SRec)
    (catalog : List (List Char)) (events : List Smp.Event)
    (h1 : mode ≠ ppkMode) (h2 : mode ≠ pppMode) :
    load_emlid mode ppk ppp = none ∧
    Magna.magnaprobe_get_gps_correction mode ppk ppp df_magna =
      Except.error Magna.errNoTrack ∧
    (∃ msg, Smp.smp_get_gps_correction mode ppk ppp catalog events =
      Except.error msg) ∧
    (∀ result, Smp.smp_get_gps_correction mode ppk ppp catalog events ≠
      Except.ok result) := by
  have hload : load_emlid mode ppk ppp = none := by
    rw [load_emlid, if_neg h1, if_neg h2]
  have hsmp : ∃ msg, Smp.smp_get_gps_correction mode ppk ppp catalog events =
      Except.error msg := by
    rw [Smp.smp_get_gps_correction]
    by_cases hcat : catalog = []
    · rw [if_pos hcat]
      exact ⟨Smp.errConcat, rfl⟩
    · rw [if_neg hcat, hload]
      cases Smp.match_catalog catalog events with
      | nil => exact ⟨Smp.errFrameAssign, rfl⟩
      | cons m rest => exact ⟨Smp.errNoTrack, rfl⟩
  refine ⟨hload, ?_, hsmp, ?_⟩
  · rw [Magna.magnaprobe_get_gps_correction, hload]
  · intro result hok
    obtain ⟨msg, hmsg⟩ := hsmp
    rw [hmsg] at hok
    cases hok

/-- A fragment matching the trailing name characters of eventLate. -/
def fragM01 : List Char := ['M', '0', '1']

/-- A catalog fragment matching no fixture event name. -/
def fragZZ : List Char := ['Z', 'Z']

/-- C6 witness: the concrete unrecognized mode text; the magna driver
errors out, and the smp driver errors out both with a catalog row matching
the one event and with a catalog row matching no event. -/
theorem C6_unrecognized_mode_fatal_witness :
    bogusMode ≠ ppkMode ∧ bogusMode ≠ pppMode ∧
    load_emlid bogusMode [rowLate] [] = none ∧
    Magna.magnaprobe_get_gps_correction bogusMode [rowLate] [] srecRows =
      Except.error Magna.errNoTrack ∧
    (∃ msg, Smp.smp_get_gps_correction bogusMode [rowLate] [] [fragM01]
      [eventLate] = Except.error msg) ∧
    (∃ msg, Smp.smp_get_gps_correction bogusMode [rowLate] [] [fragZZ]
      [eventLate] = Except.error msg) :=
  ⟨by decide, by decide,
    (C6_unrecognized_mode_fatal bogusMode [rowLate] [] srecRows [fragM01]
      [eventLate] (by decide) (by decide)).1,
    (C6_unrecognized_mode_fatal bogusMode [rowLate] [] srecRows [fragM01]
      [eventLate] (by decide) (by decide)).2.1,
    (C6_unrecognized_mode_fatal bogusMode [rowLate] [] srecRows [fragM01]
      [eventLate] (by decide) (by decide)).2.2.1,
    (C6_unrecognized_mode_fatal bogusMode [rowLate] [] srecRows [fragZZ]
      [eventLate] (by decide) (by decide)).2.2.1⟩

/-- C7 counterexample: over all finite numeric inputs the sign statement of
the claim fails: with a negative minutes argument the result is negative
although degrees is positive, and at the all zero input a nonnegative
degrees argument yields zero, not a positive result. -/
theorem C7_counterexample :
    degree_dms2dec 1 (-120) 0 = -1 ∧ ¬ (0 < degree_dms2dec 1 (-120) 0) ∧
    degree_dms2dec 0 0 0 = 0 ∧ ¬ (0 < degree_dms2dec 0 0 0) := by
  norm_num [degree_dms2dec]

/-- C7 amended: for all rational inputs the converter equals the branch
form of the source (the magnitude formula with the sign flip applied
exactly when degrees is negative) and never fails; when minutes and
seconds are nonnegative, nonnegative degrees give a nonnegative result
(zero only at the all zero input) and negative degrees give a negative
result; and both quoted example values hold within 1e-9. -/
theorem C7_dms_to_decimal (dd mn ss : ℚ) :
    degree_dms2dec dd mn ss =
      (if 0 ≤ dd then |dd| + mn / 60 + ss / 3600
       else -(|dd| + mn / 60 + ss / 3600)) ∧
    (0 ≤ mn → 0 ≤ ss →
      (0 ≤ dd → 0 ≤ degree_dms2dec dd mn ss) ∧
      (0 ≤ dd → degree_dms2dec dd mn ss = 0 → dd = 0 ∧ mn = 0 ∧ ss = 0) ∧
      (dd < 0 → degree_dms2dec dd mn ss < 0)) ∧
    |degree_dms2dec 45 30 15 - 45.50416666666667| < 1 / 1000000000 ∧
    degree_dms2dec (-45) 30 15 = -degree_dms2dec 45 30 15 := by
  have hex : |degree_dms2dec 45 30 15 - 45.50416666666667| < 1 / 1000000000 := by
    have : degree_dms2dec 45 30 15 - 45.50416666666667 =
        -(1 / 300000000000000) := by
      norm_num [degree_dms2dec]
    rw [this, abs_neg, abs_of_nonneg (by norm_num)]
    norm_num
  refine ⟨?_, ?_, hex, by norm_num [degree_dms2dec]⟩
  · rw [degree_dms2dec]
    by_cases h : 0 ≤ dd
    · rw [if_pos h, if_pos h, abs_of_nonneg h]
    · rw [if_neg h, if_neg h]
  · intro hmn hss
    have hmn60 : 0 ≤ mn / 60 := by positivity
    have hss3600 : 0 ≤ ss / 3600 := by positivity
    refine ⟨?_, ?_, ?_⟩
    · intro hdd
      rw [degree_dms2dec, if_pos hdd]
      linarith
    · intro hdd hzero
      rw [degree_dms2dec, if_pos hdd] at hzero
      have h1 : dd = 0 := by linarith
      have h2 : mn / 60 = 0 := by linarith
      have h3 : ss / 3600 = 0 := by linarith
      refine ⟨h1, ?_, ?_⟩
      · have := (div_eq_zero_iff.mp h2)
        rcases this with h | h
        · exact h
        · norm_num at h
      · have := (div_eq_zero_iff.mp h3)
        rcases this with h | h
        · exact h
        · norm_num at h
    · intro hdd
      rw [degree_dms2dec, if_neg (by linarith)]
      have habs : 0 < |dd| := abs_pos.mpr (by linarith)
      linarith

/-- C7 witness: the negative degrees example satisfies the nonnegativity
hypotheses on minutes and seconds and yields a negative result. -/
theorem C7_dms_to_decimal_witness :
    (0 : ℚ) ≤ 30 ∧ (0 : ℚ) ≤ 15 ∧ (-45 : ℚ) < 0 ∧
    degree_dms2dec (-45) 30 15 < 0 :=
  ⟨by norm_num, by norm_num, by norm_num,
    ((C7_dms_to_decimal (-45) 30 15).2.1 (by norm_num) (by norm_num)).2.2
      (by norm_num)⟩

/-- A catalog fragment occurring in the last eight characters of both
counterexample event names. -/
def fragAA : List Char := ['A', 'A']

/-- First counterexample event, name ending in AA01. -/
def eventAA1 : Smp.Event :=
  { name := ['f', 'i', 'l', 'e', 'A', 'A', '0', '1'], timestamp := some 10,
    lat := none, lon := none }

/-- Second counterexample event, name ending in AA02. -/
def eventAA2 : Smp.Event :=
  { name := ['d', 'a', 't', 'a', 'A', 'A', '0', '2'], timestamp := some 20,
    lat := none, lon := none }

/-- C8 counterexample: one catalog entry with two matching events and one
with none compensate in the total row count, so the missing files warning
stays silent although neither entry has exactly one match. -/
theorem C8_counterexample :
    ([eventAA1, eventAA2].filter
      (fun e => Smp.matchesFrag fragAA e.name)).length = 2 ∧
    ([eventAA1, eventAA2].filter
      (fun e => Smp.matchesFrag fragZZ e.name)).length = 0 ∧
    Smp.missing_warning [fragAA, fragZZ] [eventAA1, eventAA2] = false := by
  refine ⟨by decide, by decide, by decide⟩

/-- C8 amended: an event matches a catalog entry exactly when the fragment
occurs as a substring of the last eight characters of the event name, and
all matching events of every entry are collected in catalog order; the
single data integrity warning is reported exactly when the total number of
collected rows differs from the number of catalog entries (never aborting),
so it fires under any single mismatched entry but compensating zero and
multiple matches across entries can go unreported; when every entry has
exactly one match no warning is reported. -/
theorem C8_fragment_matching (catalog : List (List Char))
    (events : List Smp.Event) :
    (∀ (frag name : List Char),
      Smp.matchesFrag frag name = true ↔ frag <:+: Smp.lastN 8 name) ∧
    (Smp.missing_warning catalog events = true ↔
      (Smp.match_catalog catalog events).length ≠ catalog.length) ∧
    ((∀ frag ∈ catalog,
        (events.filter (fun e => Smp.matchesFrag frag e.name)).length = 1) →
      Smp.missing_warning catalog events = false) := by
  refine ⟨?_, ?_, ?_⟩
  · intro frag name
    rw [Smp.matchesFrag]
    exact decide_eq_true_iff
  · rw [Smp.missing_warning]
    exact decide_eq_true_iff
  · intro h
    have hlen : (Smp.match_catalog catalog events).length = catalog.length := by
      induction catalog with
      | nil => rfl
      | cons frag rest ih =>
        rw [Smp.match_catalog, List.flatMap_cons, List.length_append]
        have h1 := h frag (List.mem_cons_self frag rest)
        have h2 := ih (fun f hf => h f (List.mem_cons_of_mem frag hf))
        rw [Smp.match_catalog] at h2
        rw [h1, h2, List.length_cons]
        omega
    rw [Smp.missing_warning, hlen]
    simp

/-- C8 amended witness: a one entry catalog whose fragment matches exactly
the one event reports no warning. -/
theorem C8_fragment_matching_witness :
    (∀ frag ∈ ([fragM01] : List (List Char)),
      (([eventLate] : List Smp.Event).filter
        (fun e => Smp.matchesFrag frag e.name)).length = 1) ∧
    Smp.missing_warning [fragM01] [eventLate] = false :=
  ⟨by decide, (C8_fragment_matching [fragM01] [eventLate]).2.2 (by decide)⟩

/-- Helper: at one query instant the two smp lookups fail together: the
latitude read is unset exactly when the longitude read is. -/
theorem smp_lat_none_iff_lon_none (t : Option Nat) (track : List Fix) :
    Smp.get_lat_emlid t track = none ↔ Smp.get_lon_emlid t track = none := by
  cases t with
  | none => exact ⟨fun _ => rfl, fun _ => rfl⟩
  | some q =>
    show (track[searchsorted (track.map Fix.timestamp) q]?).map Fix.lat =
        none ↔
      (track[searchsorted (track.map Fix.timestamp) q]?).map Fix.lon = none
    cases track[searchsorted (track.map Fix.timestamp) q]? with
    | none => exact ⟨fun _ => rfl, fun _ => rfl⟩
    | some f =>
      constructor
      · intro h
        cases h
      · intro h
        cases h

/-- C9: on the success path of the event driver the run always completes
with the improved table written (the ok payload), whatever the warning
flags; and the unmatched position warning is reported exactly when some
mapped event ends with an unset corrected latitude or an unset corrected
longitude (the two are unset together, so the doubled latitude test of the
source detects both). -/
theorem C9_unset_coordinate_warning (mode : String) (ppk : List PpkRow)
    (ppp : List PppRow) (catalog : List (List Char)) (events : List Smp.Event)
    (track : List Fix) (corrected : List Smp.CorrectedEvent)
    (hmode : load_emlid mode ppk ppp = some track) (hcat : catalog ≠ [])
    (hcor : corrected =
      Smp.correct_events (Smp.match_catalog catalog events) track) :
    Smp.smp_get_gps_correction mode ppk ppp catalog events =
      Except.ok (Smp.missing_warning catalog events,
        Smp.lat_warning corrected, corrected) ∧
    (Smp.lat_warning corrected = true ↔
      ∃ c ∈ corrected, c.lat_emlid = none ∨ c.lon_emlid = none) := by
  subst hcor
  constructor
  · rw [Smp.smp_get_gps_correction, if_neg hcat, hmode]
  · have hlatlon : ∀ c ∈ Smp.correct_events
        (Smp.match_catalog catalog events) track,
        (c.lat_emlid = none ↔ c.lon_emlid = none) := by
      intro c hc
      rw [Smp.correct_events] at hc
      obtain ⟨e, _, rfl⟩ := List.mem_map.mp hc
      exact smp_lat_none_iff_lon_none e.timestamp track
    rw [Smp.lat_warning, Bool.or_self, List.any_eq_true]
    constructor
    · rintro ⟨c, hc, hnone⟩
      rw [Option.isNone_iff_eq_none] at hnone
      exact ⟨c, hc, Or.inl hnone⟩
    · rintro ⟨c, hc, hnone⟩
      refine ⟨c, hc, ?_⟩
      rw [Option.isNone_iff_eq_none]
      rcases hnone with h | h
      · exact h
      · exact (hlatlon c hc).mpr h

/-- C9 witness: one catalog row matching one event past the track span; the
run returns ok with the warning flag raised and the output row present. -/
theorem C9_unset_coordinate_warning_witness :
    load_emlid ppkMode [rowLate] [] = some (load_track_ppk [rowLate]) ∧
    ([fragM01] : List (List Char)) ≠ [] ∧
    Smp.smp_get_gps_correction ppkMode [rowLate] [] [fragM01] [eventLate] =
      Except.ok (Smp.missing_warning [fragM01] [eventLate],
        Smp.lat_warning (Smp.correct_events
          (Smp.match_catalog [fragM01] [eventLate]) (load_track_ppk [rowLate])),
        Smp.correct_events (Smp.match_catalog [fragM01] [eventLate])
          (load_track_ppk [rowLate])) :=
  ⟨by decide, by decide,
    (C9_unset_coordinate_warning ppkMode [rowLate] [] [fragM01] [eventLate]
      (load_track_ppk [rowLate])
      (Smp.correct_events (Smp.match_catalog [fragM01] [eventLate])
        (load_track_ppk [rowLate]))
      (by decide) (by decide) rfl).1⟩

end MagnaGps
